import Mathlib

/-!
Shallow embedding of the planning core of the `niagara-daily-planning`
repository (files `src/03_daily_scheduler.py` and `src/02_mrp_explode.py`),
together with theorems settling the specification claims about it.

Embedding conventions:
* pandas DataFrames become Lean lists of structures, one structure per table row;
* Python floats become exact rationals (`ℚ`); integer case counts become `Nat`;
* calendar dates handled arithmetically (`due_date`, `order_date`, forecast dates)
  become day indices (`Int`); dates that the source only compares as ISO strings
  (the MRP date buckets and `eta_date`) stay `String`, since lexicographic string
  order on ISO dates is date order and that is exactly what the source compares;
* `pandas.DataFrame.groupby(sort=True)` (the default used by the source) emits the
  groups sorted by the group key, and a multi-column `sort_values` is a stable
  lexicographic sort; both are modelled with `List.insertionSort`, which inserts
  an earlier element before later equal elements and is therefore stable;
* dictionary lookups built with `set_index(...).to_dict()` become `List.find?`
  (the source tables are keyed, so duplicate keys do not arise);
* `fillna` defaults become explicit `Option ... getD` defaults.

The core rational operations are restored to their definitional reducibility so
that concrete instances of the embedded functions can be evaluated by `decide`;
this changes nothing about what is provable, only what reduces.
-/

set_option allowUnsafeReducibility true

attribute [local semireducible] Rat.mul Rat.div Rat.add Rat.sub Rat.inv Rat.neg
  Rat.blt Rat.normalize Rat.divInt Rat.floor Rat.ceil

/-- One row of the `orders` table (columns used by the scheduler). -/
structure OrderRow where
  customer : String
  sku : String
  qty_cases : Nat
  due_date : Int
  priority_class : String
  deriving DecidableEq, Repr

/-- One row of the `lines` table. `eligible_skus` is the pipe-delimited
eligibility string already split into a list, as `schedule_day` does with
`str(lr["eligible_skus"]).split("|")`. -/
structure LineRow where
  line_id : String
  rate_cph : Nat
  shift_hours : ℚ
  downtime_min : ℚ
  eligible_skus : List String
  deriving DecidableEq, Repr

/-- One row of the `changeover_matrix` table. -/
structure ChangeEntry where
  from_sku : String
  to_sku : String
  changeover_min : Nat
  deriving DecidableEq, Repr

/-- One row of the `forecast` table (columns used by the core). -/
structure ForecastRow where
  sku : String
  date : Int
  forecast_cases : Nat
  deriving DecidableEq, Repr

/-- One row of the `fg_inventory` table (columns used by the core). -/
structure FgInvRow where
  sku : String
  on_hand_cases : Nat
  deriving DecidableEq, Repr

/-- One row of the `policy` table (columns used by the core). -/
structure PolicyRow where
  sku : String
  min_dos : ℚ
  target_dos : ℚ
  max_dos : ℚ
  moq_cases : Nat
  pack_rounding : Nat
  deriving DecidableEq, Repr

/-- One row of the policy-status snapshot produced by `build_policy_status`.
The threshold pass-through columns (`min_dos`, `target_dos`, `max_dos`) are not
carried: downstream code (`schedule_day`) reads only `sku` and `policy_status`,
and `dos` is the only other derived column. -/
structure PolicyStatusRow where
  sku : String
  dos : ℚ
  policy_status : String
  deriving DecidableEq, Repr

/-- The scorer weights of the `Weights` dataclass, with its default values. -/
structure Weights where
  overdue : ℚ := 100
  due_0_1 : ℚ := 60
  due_2_3 : ℚ := 35
  key_customer : ℚ := 20
  high_priority : ℚ := 18
  med_priority : ℚ := 8
  low_priority : ℚ := 0
  policy_red : ℚ := 25
  policy_yellow : ℚ := 10
  changeover_penalty : ℚ := 6/100
  deriving DecidableEq, Repr

/-- The default `Weights()` instance constructed inside `schedule_day`. -/
def defaultWeights : Weights := {}

/-- One aggregated SKU-demand group of the scheduler (`sku_need` rows). -/
structure SkuGroup where
  sku : String
  total_qty_cases : Nat
  max_priority : ℚ
  deriving DecidableEq, Repr

/-- The mutable per-line state of one scheduling pass: the `remaining_cases`
and `last_sku` columns of `ldf`.  The static columns (`rate_cph`, ...) are read
from the input `LineRow`s where the source reads them. -/
structure LineState where
  line_id : String
  eligible_skus : List String
  remaining_cases : Nat
  last_sku : String
  deriving DecidableEq, Repr

/-- One row of `daily_production_schedule` as emitted by `schedule_day`. -/
structure SchedRow where
  date : Int
  line_id : String
  sku : String
  planned_qty_cases : Nat
  unmet_qty_cases : Nat
  plan_source : String
  changeover_min : Nat
  flags : String
  deriving DecidableEq, Repr

/-- One row of `plan_by_sku_day` as emitted by the replenishment generator. -/
structure PlanRow where
  date : Int
  sku : String
  planned_qty_cases : Nat
  deriving DecidableEq, Repr

/-- One aggregated requirement row fed to `build_mrp_exception`. -/
structure ReqRow where
  date : String
  material : String
  req_qty : ℚ
  deriving DecidableEq, Repr

/-- One row of the `material_inventory` table.  A missing `eta_date` is the
empty string, as after the source's `fillna("")`. -/
structure MatInvRow where
  material : String
  on_hand_qty : ℚ
  on_order_qty : ℚ
  eta_date : String
  deriving DecidableEq, Repr

/-- One row of the `mrp_exception_report` produced by `build_mrp_exception`. -/
structure ExcRow where
  date : String
  material : String
  req_qty : ℚ
  available_qty : ℚ
  short_qty : ℚ
  earliest_eta : String
  suggested_action : String
  deriving DecidableEq, Repr

/-- `pandas.unique` order: all distinct elements, first occurrence first.
(`List.dedup` keeps last occurrences, so it is applied to the reversed list.) -/
def uniqueFirst (l : List String) : List String := l.reverse.dedup.reverse

/-- Code-point lexicographic strict comparison of character lists: the string
order Python uses for `sorted`, `<=` on strings, and pandas key sorts. -/
def charListLt : List Char → List Char → Bool
  | [], [] => false
  | [], _ :: _ => true
  | _ :: _, [] => false
  | a :: as, b :: bs => if a < b then true else if b < a then false else charListLt as bs

/-- Python's `a < b` on strings. -/
def strLt (a b : String) : Bool := charListLt a.data b.data

/-- Python's `a <= b` on strings: the negation of `b < a` (the order is
total). -/
def strLe (a b : String) : Bool := !(strLt b a)

/-- `strLe` as a relation, for `List.insertionSort`. -/
def strLeP (a b : String) : Prop := strLe a b = true

instance decStrLeP : DecidableRel strLeP := fun a b =>
  inferInstanceAs (Decidable (strLe a b = true))

/-- `_priority_score`: additive order score from due-date proximity, key
customer, priority class and policy status. `dtd` is the due date minus
`today` in days. -/
def priority_score (o : OrderRow) (today : Int) (policyStatus : String) (w : Weights) : ℚ :=
  let dtd := o.due_date - today
  (if dtd < 0 then w.overdue
   else if dtd ≤ 1 then w.due_0_1
   else if dtd ≤ 3 then w.due_2_3 else 0)
  + (if o.customer = "CUST01" ∨ o.customer = "CUST02" then w.key_customer else 0)
  + (if o.priority_class = "HIGH" then w.high_priority
     else if o.priority_class = "MED" then w.med_priority else w.low_priority)
  + (if policyStatus = "RED" then w.policy_red
     else if policyStatus = "YELLOW" then w.policy_yellow else 0)

/-- The 7-day average forecast of one SKU over the half-open window
[today, today+7), defaulting to 1 when no forecast rows fall in the window
(the source's left join followed by `fillna(1.0)`). -/
def avg_daily_fcst_7d (forecast : List ForecastRow) (today : Int) (sku : String) : ℚ :=
  let rows := forecast.filter
    (fun f => f.sku == sku && decide (today ≤ f.date) && decide (f.date < today + 7))
  if rows.length = 0 then 1
  else ((rows.map (fun f => (f.forecast_cases : ℚ))).sum) / (rows.length : ℚ)

/-- One output row of `build_policy_status` for one `fg_inventory` row.
A SKU missing from the policy table leaves NaN thresholds in the source, and a
comparison with NaN is `False`, so both threshold tests fail and the status is
"GREEN"; the `none` branch mirrors that. -/
def policy_status_row (forecast : List ForecastRow) (policy : List PolicyRow) (today : Int)
    (r : FgInvRow) : PolicyStatusRow :=
  let avg := avg_daily_fcst_7d forecast today r.sku
  let dos := (r.on_hand_cases : ℚ) / avg
  let st :=
    match policy.find? (fun p => p.sku == r.sku) with
    | none => "GREEN"
    | some p => if dos < p.min_dos then "RED" else if p.max_dos < dos then "YELLOW" else "GREEN"
  ⟨r.sku, dos, st⟩

/-- `build_policy_status`: one status row per `fg_inventory` row. -/
def build_policy_status (fg : List FgInvRow) (forecast : List ForecastRow)
    (policy : List PolicyRow) (today : Int) : List PolicyStatusRow :=
  fg.map (policy_status_row forecast policy today)

/-- The per-order policy status used by `schedule_day`:
`orders["sku"].map(pol).fillna("GREEN")`. -/
def order_policy_status (pol : List PolicyStatusRow) (sku : String) : String :=
  ((pol.find? (fun r => r.sku == sku)).map (fun r => r.policy_status)).getD "GREEN"

/-- The total demand of one SKU: the sum of `qty_cases` over its orders. -/
def total_demand (orders : List OrderRow) (s : String) : Nat :=
  ((orders.filter (fun o => o.sku == s)).map (fun o => o.qty_cases)).sum

/-- One aggregated group of `sku_need` for the SKU `s`: total quantity (sum)
and priority key (max score).  `schedule_day` scores with the default
`Weights()`; with those (all non-negative) weights every score is `≥ 0`, so
folding `max` with base `0` is the group maximum. -/
def sku_group (orders : List OrderRow) (pol : List PolicyStatusRow) (day : Int)
    (s : String) : SkuGroup :=
  let os := orders.filter (fun o => o.sku == s)
  ⟨s, total_demand orders s,
    (os.map (fun o => priority_score o day (order_policy_status pol o.sku) defaultWeights)).foldr
      max 0⟩

/-- The stable sort key of `sort_values(["max_priority","total_qty_cases"],
ascending=[False,False])`: `a` may be placed before `b`.  Ties (both keys
equal) keep the earlier element first, which is stability. -/
def groupLE (a b : SkuGroup) : Prop :=
  b.max_priority < a.max_priority ∨
    (a.max_priority = b.max_priority ∧ b.total_qty_cases ≤ a.total_qty_cases)

instance decGroupLE : DecidableRel groupLE := fun a b =>
  inferInstanceAs (Decidable (b.max_priority < a.max_priority ∨
    (a.max_priority = b.max_priority ∧ b.total_qty_cases ≤ a.total_qty_cases)))

/-- `sku_need`: aggregate the orders by SKU — `groupby(["sku"])` with the
default `sort=True` emits the groups ordered by SKU ascending — then stably
sort by (max priority desc, total quantity desc). -/
def sku_need (orders : List OrderRow) (pol : List PolicyStatusRow) (day : Int) :
    List SkuGroup :=
  let keys := List.insertionSort strLeP (uniqueFirst (orders.map (fun o => o.sku)))
  List.insertionSort groupLE (keys.map (sku_group orders pol day))

/-- Modelled from the spec: the group ordering the spec claims — the groups in
the orders' first-seen order, stably sorted by (max priority desc, total
quantity desc), so that remaining ties keep the SKUs' first-seen order.  This
definition exists only to be compared with `sku_need`, which follows the
source. -/
def spec_sku_need (orders : List OrderRow) (pol : List PolicyStatusRow) (day : Int) :
    List SkuGroup :=
  List.insertionSort groupLE
    ((uniqueFirst (orders.map (fun o => o.sku))).map (sku_group orders pol day))

/-- The derived capacity of a line:
`rate_cph * shift_hours - rate_cph * (downtime_min / 60)`. -/
def capacity_cases (l : LineRow) : ℚ :=
  (l.rate_cph : ℚ) * l.shift_hours - (l.rate_cph : ℚ) * (l.downtime_min / 60)

/-- The initial remaining capacity of a line:
`capacity_cases.clip(lower=0).astype(int)` — clip below at 0, then truncate to
an integer (truncation toward zero equals `⌊·⌋` on a non-negative value). -/
def init_remaining (l : LineRow) : Nat := (⌊max 0 (capacity_cases l)⌋).toNat

/-- The initial per-line state of a run: full remaining capacity, no last SKU. -/
def init_lines (lines : List LineRow) : List LineState :=
  lines.map (fun l => ⟨l.line_id, l.eligible_skus, init_remaining l, ""⟩)

/-- The median of the `rate_cph` column (`pandas` median: middle element of the
sorted values for odd length, mean of the two middle elements for even
length).  The source never takes it over an empty table; `0` is the junk value
there. -/
def median_rate_cph (lines : List LineRow) : ℚ :=
  let s := List.insertionSort (fun a b : ℚ => a ≤ b)
    (lines.map (fun l => (l.rate_cph : ℚ)))
  let n := s.length
  if n = 0 then 0
  else if n % 2 = 1 then s.getD (n / 2) 0
  else (s.getD (n / 2 - 1) 0 + s.getD (n / 2) 0) / 2

/-- `chg`: the changeover minutes charged from last SKU `a` to candidate `b` —
`0` if the line has no prior SKU, else the matrix entry with a 60-minute
default for a missing pair. -/
def chg (matrix : List ChangeEntry) (a b : String) : Nat :=
  if a = "" then 0
  else (((matrix.find? (fun e => e.from_sku == a && e.to_sku == b)).map
    (fun e => e.changeover_min)).getD 60)

/-- The eligible-line candidates for one SKU, in line enumeration order:
every line whose eligible set contains the SKU and whose remaining capacity is
positive, tagged with its selection score
`remaining - co * median_rate / 60 - co * 10`, its line id, and `co`. -/
def elig_lines (matrix : List ChangeEntry) (med : ℚ) (ls : List LineState)
    (sku : String) : List (ℚ × String × Nat) :=
  ls.filterMap (fun st =>
    if sku ∈ st.eligible_skus ∧ 0 < st.remaining_cases then
      some ((st.remaining_cases : ℚ) - ((chg matrix st.last_sku sku : ℚ) * med / 60)
              - ((chg matrix st.last_sku sku : ℚ) * 10),
            st.line_id, chg matrix st.last_sku sku)
    else none)

/-- The head of the stable descending sort by score
(`elig.sort(reverse=True, key=lambda x: x[0]); elig[0]`): the first candidate
attaining the maximal score.  A later candidate replaces the current best only
when its score is strictly greater, which is exactly what head-of-stable-sort
gives. -/
def pickBest : List (ℚ × String × Nat) → Option (ℚ × String × Nat)
  | [] => none
  | x :: xs =>
    match pickBest xs with
    | none => some x
    | some b => some (if x.1 < b.1 then b else x)

/-- Update the first list element satisfying `p` (the source updates at
`ldf.index[ldf["line_id"] == line_id][0]`, the first matching index). -/
def updateFirst (p : α → Bool) (f : α → α) : List α → List α
  | [] => []
  | x :: xs => if p x then f x :: xs else x :: updateFirst p f xs

/-- One iteration of the allocation loop of `schedule_day` for one SKU-demand
group: emit an UNASSIGNED row when no line is eligible with remaining
capacity; otherwise allocate `min(qty, remaining)` on the best-scoring line,
decrement its remaining capacity and set its last SKU.  The inner `none`
branch of the line lookup is unreachable (the picked id comes from `ls`);
it leaves the state unchanged. -/
def allocStep (matrix : List ChangeEntry) (med : ℚ) (day : Int)
    (ls : List LineState) (g : SkuGroup) : List LineState × SchedRow :=
  match pickBest (elig_lines matrix med ls g.sku) with
  | none =>
      (ls, ⟨day, "UNASSIGNED", g.sku, 0, g.total_qty_cases, "", 0, "CAPACITY_OR_ELIGIBILITY"⟩)
  | some e =>
      match ls.find? (fun st => st.line_id == e.2.1) with
      | none => (ls, ⟨day, e.2.1, g.sku, 0, g.total_qty_cases, "AUTO", e.2.2, ""⟩)
      | some st =>
          let can := st.remaining_cases
          let make := min g.total_qty_cases can
          (updateFirst (fun s2 => s2.line_id == e.2.1)
             (fun s2 => { s2 with remaining_cases := can - make, last_sku := g.sku }) ls,
           ⟨day, e.2.1, g.sku, make, g.total_qty_cases - make, "AUTO", e.2.2, ""⟩)

/-- The sequential allocation loop over the sorted SKU-demand groups, threading
the per-line state and collecting one schedule row per group. -/
def runAlloc (matrix : List ChangeEntry) (med : ℚ) (day : Int) :
    List LineState → List SkuGroup → List LineState × List SchedRow
  | ls, [] => (ls, [])
  | ls, g :: gs =>
    let p := allocStep matrix med day ls g
    let rest := runAlloc matrix med day p.1 gs
    (rest.1, p.2 :: rest.2)

/-- `schedule_day`: score the orders, aggregate them into sorted SKU-demand
groups, and run the greedy allocation over the lines. -/
def schedule_day (orders : List OrderRow) (lines : List LineRow)
    (matrix : List ChangeEntry) (pol : List PolicyStatusRow) (day : Int) : List SchedRow :=
  (runAlloc matrix (median_rate_cph lines) day (init_lines lines)
    (sku_need orders pol day)).2

/-- Round half to even (the rounding of `pandas.Series.round`, `numpy.round`
and Python's builtin `round`). -/
def roundHalfEven (q : ℚ) : Int :=
  let f := ⌊q⌋
  if q - (f : ℚ) < 1/2 then f
  else if (1 : ℚ)/2 < q - (f : ℚ) then f + 1
  else if f % 2 = 0 then f else f + 1

/-- The replenishment target quantity of one SKU:
`(target_dos * avg_daily_fcst_7d).round().astype(int)`. -/
def target_qty (p : PolicyRow) (avg : ℚ) : Nat := (roundHalfEven (p.target_dos * avg)).toNat

/-- The replenishment gap of one SKU:
`(target_qty - on_hand_cases).clip(lower=0)` — truncated subtraction on `Nat`
is exactly clip-below-at-zero. -/
def gap_cases (p : PolicyRow) (avg : ℚ) (on_hand : Nat) : Nat := target_qty p avg - on_hand

/-- Modelled from the spec: the gap formula the spec claims,
`max(0, target_dos × average forecast − on-hand)` with no rounding of the
target.  This definition exists only to be compared with `gap_cases`, which
follows the source. -/
def spec_gap (p : PolicyRow) (avg : ℚ) (on_hand : Nat) : ℚ :=
  max 0 (p.target_dos * avg - (on_hand : ℚ))

/-- MOQ raise and pack rounding of a positive gap: raise to at least
`moq_cases`, then round up to the next multiple of `max(1, pack_rounding)`
(`int(np.ceil(gap / rnd) * rnd)`, written with integer ceiling division). -/
def gap_rounded (gap moq rnd0 : Nat) : Nat :=
  let g := max gap moq
  let rnd := max 1 rnd0
  ((g + rnd - 1) / rnd) * rnd

/-- The fixed 3-day split fractions `[0.45, 0.35, 0.20]`. -/
def split_fracs : List ℚ := [45/100, 35/100, 20/100]

/-- The per-day plan rows of one SKU's rounded gap: day `today + i` gets
`int(round(gap * frac_i))`, and zero-quantity days are omitted. -/
def plan_rows_for (today : Int) (sku : String) (gap : Nat) : List PlanRow :=
  split_fracs.enum.filterMap (fun p =>
    let q := (roundHalfEven ((gap : ℚ) * p.2)).toNat
    if 0 < q then some ⟨today + (p.1 : Int), sku, q⟩ else none)

/-- The replenishment plan builder (`plan_by_sku_day` of the scheduler's
`main`): one pass over the finished-goods inventory rows; a SKU whose gap is
zero contributes no rows.  A SKU missing from the policy table would make the
source's `astype(int)` fail on NaN before any row is produced; the `none`
branch contributes no rows and is never exercised by the claims. -/
def build_plan (fg : List FgInvRow) (forecast : List ForecastRow)
    (policy : List PolicyRow) (today : Int) : List PlanRow :=
  (fg.map (fun r =>
    match policy.find? (fun p => p.sku == r.sku) with
    | none => []
    | some p =>
      let gap := gap_cases p (avg_daily_fcst_7d forecast today r.sku) r.on_hand_cases
      if gap = 0 then []
      else plan_rows_for today r.sku (gap_rounded gap p.moq_cases p.pack_rounding))).flatten

/-- `material_availability` for one inventory row and one bucket date:
`on_hand + (on_order if eta_date != "" and eta_date <= date else 0)`. -/
def available_qty (m : MatInvRow) (d : String) : ℚ :=
  m.on_hand_qty + (if m.eta_date ≠ "" ∧ strLe m.eta_date d = true then m.on_order_qty else 0)

/-- One merged exception row for a requirement row and its (optional) matched
inventory row; a material absent from the inventory gets availability `0`
(the source's `fillna({"available_qty": 0.0})`) and an empty earliest ETA.
`short_qty = (req_qty - available_qty).clip(lower=0)`. -/
def exc_row (rq : ReqRow) (m? : Option MatInvRow) : ExcRow :=
  let avail := match m? with | none => 0 | some m => available_qty m rq.date
  let eta := match m? with | none => "" | some m => m.eta_date
  ⟨rq.date, rq.material, rq.req_qty, avail, max 0 (rq.req_qty - avail), eta,
    "Expedite / Re-sequence / Substitute"⟩

/-- `build_mrp_exception`: for each date bucket (`sorted(req["date"].unique())`)
independently, left-join that day's requirement rows with the availability
table on `material` and keep the rows whose short quantity is strictly
positive. -/
def build_mrp_exception (req : List ReqRow) (inv : List MatInvRow) : List ExcRow :=
  ((List.insertionSort strLeP (uniqueFirst (req.map (fun r => r.date)))).map
    (fun d =>
      ((req.filter (fun r => r.date == d)).map (fun rq =>
        (let ms := inv.filter (fun m => m.material == rq.material)
         if ms = [] then [exc_row rq none] else ms.map (fun m => exc_row rq (some m))).filter
          (fun e => decide (0 < e.short_qty)))).flatten)).flatten

/-! ### Helper lemmas about the allocation loop -/

lemma allocStep_row (matrix : List ChangeEntry) (med : ℚ) (day : Int)
    (ls : List LineState) (g : SkuGroup) :
    (allocStep matrix med day ls g).2.sku = g.sku ∧
    (allocStep matrix med day ls g).2.planned_qty_cases
      + (allocStep matrix med day ls g).2.unmet_qty_cases = g.total_qty_cases := by
  unfold allocStep
  cases hp : pickBest (elig_lines matrix med ls g.sku) with
  | none => simp
  | some e =>
    cases hf : ls.find? (fun st => st.line_id == e.2.1) with
    | none => simp [hf]
    | some st =>
      simp only [hf]
      refine ⟨by trivial, ?_⟩
      have h := Nat.min_le_left g.total_qty_cases st.remaining_cases
      omega

lemma runAlloc_rows (matrix : List ChangeEntry) (med : ℚ) (day : Int) :
    ∀ (gs : List SkuGroup) (ls : List LineState),
      ((runAlloc matrix med day ls gs).2).map
          (fun r => (r.sku, r.planned_qty_cases + r.unmet_qty_cases))
        = gs.map (fun g => (g.sku, g.total_qty_cases))
  | [], ls => rfl
  | g :: gs, ls => by
    have h := allocStep_row matrix med day ls g
    simp [runAlloc, runAlloc_rows matrix med day gs, h.1, h.2]

lemma mem_uniqueFirst {s : String} {l : List String} : s ∈ uniqueFirst l ↔ s ∈ l := by
  simp [uniqueFirst]

lemma nodup_uniqueFirst (l : List String) : (uniqueFirst l).Nodup := by
  simp only [uniqueFirst, List.nodup_reverse]
  exact l.reverse.nodup_dedup

lemma sku_group_sku (orders : List OrderRow) (pol : List PolicyStatusRow) (day : Int)
    (s : String) : (sku_group orders pol day s).sku = s := rfl

lemma sku_group_total (orders : List OrderRow) (pol : List PolicyStatusRow) (day : Int)
    (s : String) : (sku_group orders pol day s).total_qty_cases = total_demand orders s := rfl

lemma mem_sku_need {g : SkuGroup} {orders : List OrderRow} {pol : List PolicyStatusRow}
    {day : Int} :
    g ∈ sku_need orders pol day ↔
      ∃ s ∈ orders.map (fun o => o.sku), g = sku_group orders pol day s := by
  unfold sku_need
  rw [List.mem_insertionSort, List.mem_map]
  constructor
  · rintro ⟨s, hs, rfl⟩
    exact ⟨s, (mem_uniqueFirst.mp ((List.mem_insertionSort _).mp hs)), rfl⟩
  · rintro ⟨s, hs, rfl⟩
    exact ⟨s, (List.mem_insertionSort _).mpr (mem_uniqueFirst.mpr hs), rfl⟩

lemma sku_need_map_sku_perm (orders : List OrderRow) (pol : List PolicyStatusRow) (day : Int) :
    ((sku_need orders pol day).map (fun g => g.sku)).Perm
      (uniqueFirst (orders.map (fun o => o.sku))) := by
  unfold sku_need
  have h1 := (List.perm_insertionSort groupLE
    ((List.insertionSort strLeP (uniqueFirst (orders.map (fun o => o.sku)))).map
      (sku_group orders pol day))).map (fun g => g.sku)
  rw [List.map_map] at h1
  have h2 : ((List.insertionSort strLeP (uniqueFirst (orders.map (fun o => o.sku)))).map
      ((fun g => g.sku) ∘ sku_group orders pol day))
      = List.insertionSort strLeP (uniqueFirst (orders.map (fun o => o.sku))) := by
    rw [show ((fun g : SkuGroup => g.sku) ∘ sku_group orders pol day) = id from rfl,
      List.map_id]
  rw [h2] at h1
  exact h1.trans (List.perm_insertionSort strLeP _)

lemma schedule_day_map_pairs (orders : List OrderRow) (lines : List LineRow)
    (matrix : List ChangeEntry) (pol : List PolicyStatusRow) (day : Int) :
    (schedule_day orders lines matrix pol day).map
        (fun r => (r.sku, r.planned_qty_cases + r.unmet_qty_cases))
      = (sku_need orders pol day).map (fun g => (g.sku, g.total_qty_cases)) :=
  runAlloc_rows matrix (median_rate_cph lines) day (sku_need orders pol day) (init_lines lines)

/-- C1: for every SKU-demand group processed in one scheduling run, the emitted
schedule row satisfies planned quantity + unmet quantity = the group's total
demand quantity (the sum of `qty_cases` over that SKU's orders); this covers
both rows assigned to a line and UNASSIGNED rows, which are the only two row
shapes the allocation loop emits. -/
theorem c1_planned_plus_unmet_eq_total_demand (orders : List OrderRow) (lines : List LineRow)
    (matrix : List ChangeEntry) (pol : List PolicyStatusRow) (day : Int) :
    ∀ row ∈ schedule_day orders lines matrix pol day,
      row.planned_qty_cases + row.unmet_qty_cases = total_demand orders row.sku := by
  intro row hrow
  have h := schedule_day_map_pairs orders lines matrix pol day
  have hmem : (row.sku, row.planned_qty_cases + row.unmet_qty_cases) ∈
      (sku_need orders pol day).map (fun g => (g.sku, g.total_qty_cases)) := by
    rw [← h]
    exact List.mem_map_of_mem _ hrow
  obtain ⟨g, hg, hpair⟩ := List.mem_map.mp hmem
  obtain ⟨s, _, rfl⟩ := mem_sku_need.mp hg
  have hsku : s = row.sku := congrArg Prod.fst hpair
  have htot := congrArg Prod.snd hpair
  simp only [sku_group_total] at htot
  rw [← htot, ← hsku]

/-- Witness for C1 at a concrete run: one order of 700 cases of SKU "A" on a
line with capacity 600 — the emitted row splits it as planned 600, unmet 100. -/
theorem c1_witness :
    (⟨0, "L1", "A", 600, 100, "AUTO", 0, ""⟩ : SchedRow).planned_qty_cases
        + (⟨0, "L1", "A", 600, 100, "AUTO", 0, ""⟩ : SchedRow).unmet_qty_cases
      = total_demand [⟨"Z", "A", 700, 10, "LOW"⟩] "A" :=
  c1_planned_plus_unmet_eq_total_demand [⟨"Z", "A", 700, 10, "LOW"⟩]
    [⟨"L1", 600, 1, 0, ["A"]⟩] [] [] 0 ⟨0, "L1", "A", 600, 100, "AUTO", 0, ""⟩ (by decide)

/-- C4: within a single run each distinct SKU among the orders produces exactly
one schedule row (the row SKUs are exactly the distinct order SKUs, without
duplicates), so a SKU's demand is assigned to at most one line and can never
spill to a second row. -/
theorem c4_one_row_per_sku (orders : List OrderRow) (lines : List LineRow)
    (matrix : List ChangeEntry) (pol : List PolicyStatusRow) (day : Int) :
    ((schedule_day orders lines matrix pol day).map (fun r => r.sku)).Nodup ∧
    ∀ s, s ∈ (schedule_day orders lines matrix pol day).map (fun r => r.sku) ↔
      s ∈ orders.map (fun o => o.sku) := by
  have hpairs := schedule_day_map_pairs orders lines matrix pol day
  have hmap : (schedule_day orders lines matrix pol day).map (fun r => r.sku)
      = (sku_need orders pol day).map (fun g => g.sku) := by
    have := congrArg (List.map Prod.fst) hpairs
    rwa [List.map_map, List.map_map] at this
  have hperm := sku_need_map_sku_perm orders pol day
  constructor
  · rw [hmap]
    exact hperm.nodup_iff.mpr (nodup_uniqueFirst _)
  · intro s
    rw [hmap, hperm.mem_iff, mem_uniqueFirst]

/-! ### C9: same-SKU changeover -/

/-- C9 counterexample: the changeover the scheduler charges for a same-SKU pair
is the matrix lookup with its 60-minute default, not unconditionally 0 — with
an empty matrix `chg` charges 60 for ("A","A"), and with a matrix entry
("A","A") ↦ 3 (which the mock-data generator's noise can produce) it charges
3. -/
theorem c9_counterexample :
    chg [] "A" "A" = 60 ∧ chg [⟨"A", "A", 3⟩] "A" "A" = 3 ∧ ¬ chg [] "A" "A" = 0 := by
  decide

/-- C9 amended: the scheduler charges 0 for a same-SKU changeover whenever the
changeover matrix records 0 for that pair (as the mock-data generator's rule
intends); for a matrix recording a non-zero value, or missing the pair, the
charge is that value or the 60-minute default. -/
theorem c9_same_sku_changeover (matrix : List ChangeEntry) (x : String) (e : ChangeEntry)
    (hfind : matrix.find? (fun c => c.from_sku == x && c.to_sku == x) = some e)
    (h0 : e.changeover_min = 0) : chg matrix x x = 0 := by
  by_cases hx : x = ""
  · simp [chg, hx]
  · simp [chg, hx, hfind, h0]

/-- Witness for C9 amended: a one-entry matrix recording ("A","A") ↦ 0. -/
theorem c9_witness :
    ([⟨"A", "A", 0⟩] : List ChangeEntry).find?
        (fun c => c.from_sku == "A" && c.to_sku == "A") = some ⟨"A", "A", 0⟩ ∧
      chg [⟨"A", "A", 0⟩] "A" "A" = 0 :=
  ⟨by decide, c9_same_sku_changeover [⟨"A", "A", 0⟩] "A" ⟨"A", "A", 0⟩ (by decide) rfl⟩

/-! ### C10: orders whose SKU has no policy-status row -/

/-- C10: an order whose SKU has no row in the policy-status table is scored
exactly as if its policy status were "GREEN" (the `fillna("GREEN")` default),
and for every status the score decomposes as the GREEN score plus the
policy-status weight — so the missing-SKU default contributes a policy weight
of 0 and leaves every other score component unchanged. -/
theorem c10_missing_policy_defaults_green (pol : List PolicyStatusRow) (o : OrderRow)
    (day : Int) (w : Weights)
    (h : pol.find? (fun r => r.sku == o.sku) = none) :
    order_policy_status pol o.sku = "GREEN" ∧
    priority_score o day (order_policy_status pol o.sku) w = priority_score o day "GREEN" w ∧
    ∀ st, priority_score o day st w = priority_score o day "GREEN" w +
      (if st = "RED" then w.policy_red else if st = "YELLOW" then w.policy_yellow else 0) := by
  have h1 : order_policy_status pol o.sku = "GREEN" := by
    simp [order_policy_status, h]
  refine ⟨h1, by rw [h1], ?_⟩
  intro st
  by_cases hr : st = "RED" <;> by_cases hy : st = "YELLOW" <;>
    simp [priority_score, hr, hy]

/-- Witness for C10: SKU "A" with an empty policy-status table. -/
theorem c10_witness :
    order_policy_status [] "A" = "GREEN" :=
  (c10_missing_policy_defaults_green [] ⟨"Z", "A", 1, 0, "LOW"⟩ 0 defaultWeights (by decide)).1

/-! ### C6: DOS classification -/

/-- A 7-day flat forecast of 10 cases/day for SKU "S". -/
def fc10c6 : List ForecastRow :=
  [⟨"S", 0, 10⟩, ⟨"S", 1, 10⟩, ⟨"S", 2, 10⟩, ⟨"S", 3, 10⟩, ⟨"S", 4, 10⟩, ⟨"S", 5, 10⟩,
    ⟨"S", 6, 10⟩]

/-- The policy row min_dos=6, target_dos=10, max_dos=14 for SKU "S". -/
def pol10c6 : List PolicyRow := [⟨"S", 6, 10, 14, 1, 1⟩]

lemma policy_status_row_status (fc : List ForecastRow) (policy : List PolicyRow)
    (today : Int) (r : FgInvRow) (p : PolicyRow)
    (hfind : policy.find? (fun q => q.sku == r.sku) = some p) :
    (policy_status_row fc policy today r).policy_status =
      (if (r.on_hand_cases : ℚ) / avg_daily_fcst_7d fc today r.sku < p.min_dos then "RED"
       else if p.max_dos < (r.on_hand_cases : ℚ) / avg_daily_fcst_7d fc today r.sku then
         "YELLOW"
       else "GREEN") := by
  simp [policy_status_row, hfind]

/-- C6: the classifier computes DOS = on-hand divided by the 7-day window
average (which defaults to 1 when no forecast rows fall in the window) and
assigns RED when DOS < min_dos, else YELLOW when DOS > max_dos, else GREEN,
testing RED first; with a 10/day average and thresholds 6/14, on-hand 50, 150
and 100 give DOS 5 (RED), 15 (YELLOW) and 10 (GREEN). -/
theorem c6_dos_classification :
    (∀ (fc : List ForecastRow) (policy : List PolicyRow) (today : Int) (r : FgInvRow)
        (p : PolicyRow),
      policy.find? (fun q => q.sku == r.sku) = some p →
      avg_daily_fcst_7d fc today r.sku ≠ 0 →
        (policy_status_row fc policy today r).dos * avg_daily_fcst_7d fc today r.sku
            = (r.on_hand_cases : ℚ)
        ∧ ((policy_status_row fc policy today r).dos < p.min_dos →
            (policy_status_row fc policy today r).policy_status = "RED")
        ∧ (¬ (policy_status_row fc policy today r).dos < p.min_dos →
            p.max_dos < (policy_status_row fc policy today r).dos →
            (policy_status_row fc policy today r).policy_status = "YELLOW")
        ∧ (¬ (policy_status_row fc policy today r).dos < p.min_dos →
            ¬ p.max_dos < (policy_status_row fc policy today r).dos →
            (policy_status_row fc policy today r).policy_status = "GREEN"))
    ∧ (∀ (fc : List ForecastRow) (today : Int) (sku : String),
        (fc.filter (fun f => f.sku == sku && decide (today ≤ f.date)
          && decide (f.date < today + 7))).length = 0 →
        avg_daily_fcst_7d fc today sku = 1)
    ∧ policy_status_row fc10c6 pol10c6 0 ⟨"S", 50⟩ = ⟨"S", 5, "RED"⟩
    ∧ policy_status_row fc10c6 pol10c6 0 ⟨"S", 150⟩ = ⟨"S", 15, "YELLOW"⟩
    ∧ policy_status_row fc10c6 pol10c6 0 ⟨"S", 100⟩ = ⟨"S", 10, "GREEN"⟩ := by
  refine ⟨?_, ?_, by decide, by decide, by decide⟩
  · intro fc policy today r p hfind havg
    have hdos : (policy_status_row fc policy today r).dos
        = (r.on_hand_cases : ℚ) / avg_daily_fcst_7d fc today r.sku := rfl
    have hst := policy_status_row_status fc policy today r p hfind
    refine ⟨by rw [hdos]; exact div_mul_cancel₀ _ havg, ?_, ?_, ?_⟩
    · intro hlt
      rw [hdos] at hlt
      rw [hst, if_pos hlt]
    · intro hnlt hgt
      rw [hdos] at hnlt hgt
      rw [hst, if_neg hnlt, if_pos hgt]
    · intro hnlt hngt
      rw [hdos] at hnlt hngt
      rw [hst, if_neg hnlt, if_neg hngt]
  · intro fc today sku hlen
    simp [avg_daily_fcst_7d, hlen]

/-- Witness for C6 at the concrete 10/day table: DOS times the average
recovers the on-hand quantity. -/
theorem c6_witness :
    (policy_status_row fc10c6 pol10c6 0 ⟨"S", 50⟩).dos * avg_daily_fcst_7d fc10c6 0 "S"
      = (50 : ℚ) :=
  (c6_dos_classification.1 fc10c6 pol10c6 0 ⟨"S", 50⟩ ⟨"S", 6, 10, 14, 1, 1⟩ (by decide)
    (by decide)).1

/-! ### C5: capacity and remaining-capacity invariants -/

/-- C5 counterexample: a line at 100 cases/hour with a 1-hour shift and 120
minutes of downtime has derived capacity 100·1 − 100·(120/60) = −100 < 0, and
its initial remaining capacity (clipped at 0) then exceeds the derived
capacity. -/
theorem c5_counterexample :
    capacity_cases ⟨"L1", 100, 1, 120, ["A"]⟩ < 0 ∧
    init_remaining ⟨"L1", 100, 1, 120, ["A"]⟩ = 0 ∧
    ¬ ((init_remaining ⟨"L1", 100, 1, 120, ["A"]⟩ : ℚ) ≤
        capacity_cases ⟨"L1", 100, 1, 120, ["A"]⟩) := by
  decide

lemma forall2_rem_refl (l : List LineState) :
    List.Forall₂ (fun a b => b.remaining_cases ≤ a.remaining_cases) l l :=
  List.forall₂_same.mpr (fun _ _ => le_refl _)

lemma forall2_rem_updateFirst (p : LineState → Bool) (f : LineState → LineState) :
    ∀ (ls : List LineState) (st : LineState), ls.find? p = some st →
      (f st).remaining_cases ≤ st.remaining_cases →
      List.Forall₂ (fun a b => b.remaining_cases ≤ a.remaining_cases) ls (updateFirst p f ls)
  | [], st, hfind, _ => by simp at hfind
  | x :: xs, st, hfind, hle => by
    cases hp : p x with
    | true =>
        rw [List.find?_cons_of_pos _ hp] at hfind
        cases hfind
        have hgoal : updateFirst p f (x :: xs) = f x :: xs := by simp [updateFirst, hp]
        rw [hgoal]
        exact List.Forall₂.cons hle (forall2_rem_refl xs)
    | false =>
        rw [List.find?_cons_of_neg _ (by simp [hp])] at hfind
        have hgoal : updateFirst p f (x :: xs) = x :: updateFirst p f xs := by
          simp [updateFirst, hp]
        rw [hgoal]
        exact List.Forall₂.cons (le_refl _) (forall2_rem_updateFirst p f xs st hfind hle)

lemma allocStep_rem_decreasing (matrix : List ChangeEntry) (med : ℚ) (day : Int)
    (ls : List LineState) (g : SkuGroup) :
    List.Forall₂ (fun a b => b.remaining_cases ≤ a.remaining_cases) ls
      (allocStep matrix med day ls g).1 := by
  unfold allocStep
  cases hp : pickBest (elig_lines matrix med ls g.sku) with
  | none => exact forall2_rem_refl ls
  | some e =>
    cases hf : ls.find? (fun st => st.line_id == e.2.1) with
    | none => simp only [hf]; exact forall2_rem_refl ls
    | some st =>
      simp only [hf]
      exact forall2_rem_updateFirst _ _ ls st hf (Nat.sub_le _ _)

lemma forall2_rem_trans : ∀ {l1 l2 l3 : List LineState},
    List.Forall₂ (fun a b => b.remaining_cases ≤ a.remaining_cases) l1 l2 →
    List.Forall₂ (fun a b => b.remaining_cases ≤ a.remaining_cases) l2 l3 →
    List.Forall₂ (fun a b => b.remaining_cases ≤ a.remaining_cases) l1 l3
  | _, _, _, List.Forall₂.nil, List.Forall₂.nil => List.Forall₂.nil
  | _, _, _, List.Forall₂.cons h1 t1, List.Forall₂.cons h2 t2 =>
      List.Forall₂.cons (le_trans h2 h1) (forall2_rem_trans t1 t2)

lemma runAlloc_rem_decreasing (matrix : List ChangeEntry) (med : ℚ) (day : Int) :
    ∀ (gs : List SkuGroup) (ls : List LineState),
      List.Forall₂ (fun a b => b.remaining_cases ≤ a.remaining_cases) ls
        (runAlloc matrix med day ls gs).1
  | [], ls => forall2_rem_refl ls
  | g :: gs, ls => by
    have h1 := allocStep_rem_decreasing matrix med day ls g
    have h2 := runAlloc_rem_decreasing matrix med day gs (allocStep matrix med day ls g).1
    simpa [runAlloc] using forall2_rem_trans h1 h2

lemma init_remaining_le (l : LineRow) :
    (init_remaining l : ℚ) ≤ max 0 (capacity_cases l) ∧
    (0 ≤ capacity_cases l → (init_remaining l : ℚ) ≤ capacity_cases l) := by
  have h0 : (0 : ℚ) ≤ max 0 (capacity_cases l) := le_max_left 0 _
  have hfl : (0 : ℤ) ≤ ⌊max 0 (capacity_cases l)⌋ := Int.floor_nonneg.mpr h0
  have hcast : ((init_remaining l : ℚ)) = ((⌊max 0 (capacity_cases l)⌋ : ℤ) : ℚ) := by
    unfold init_remaining
    rw [← Int.cast_natCast, Int.toNat_of_nonneg hfl]
  have hle : ((⌊max 0 (capacity_cases l)⌋ : ℤ) : ℚ) ≤ max 0 (capacity_cases l) :=
    Int.floor_le _
  refine ⟨by rw [hcast]; exact hle, ?_⟩
  intro hcap
  rw [hcast]
  calc ((⌊max 0 (capacity_cases l)⌋ : ℤ) : ℚ) ≤ max 0 (capacity_cases l) := hle
    _ = capacity_cases l := max_eq_right hcap

lemma c5_combine : ∀ (lines : List LineRow) (final : List LineState),
    List.Forall₂ (fun a b => b.remaining_cases ≤ a.remaining_cases)
      (init_lines lines) final →
    List.Forall₂ (fun (l : LineRow) (st : LineState) =>
        st.remaining_cases ≤ init_remaining l ∧
        (st.remaining_cases : ℚ) ≤ max 0 (capacity_cases l) ∧
        (0 ≤ capacity_cases l → (st.remaining_cases : ℚ) ≤ capacity_cases l))
      lines final
  | [], final, h => by
      simp only [init_lines, List.map_nil] at h
      cases h
      exact List.Forall₂.nil
  | l :: ls, final, h => by
      simp only [init_lines, List.map_cons] at h
      cases h with
      | cons hhead htail =>
        refine List.Forall₂.cons ?_ (c5_combine ls _ htail)
        have hinit := init_remaining_le l
        have hcastle : ((_ : LineState).remaining_cases : ℚ) ≤ (init_remaining l : ℚ) :=
          Nat.cast_le.mpr hhead
        exact ⟨hhead, le_trans hcastle hinit.1,
          fun hcap => le_trans hcastle (hinit.2 hcap)⟩

/-- C5 amended: the derived capacity `rate × shift_hours − rate × downtime/60`
can be negative (when downtime exceeds 60 × shift hours); the allocation works
with the remaining capacity, a natural number initialised to the capacity
clipped below at 0 and truncated, which every allocation step only decreases,
so after any run each line's remaining capacity is at most its initial value,
at most `max 0 capacity`, and at most the capacity whenever the capacity is
non-negative. -/
theorem c5_remaining_capacity_invariants :
    (∀ (matrix : List ChangeEntry) (med : ℚ) (day : Int) (ls : List LineState) (g : SkuGroup),
      List.Forall₂ (fun a b => b.remaining_cases ≤ a.remaining_cases) ls
        (allocStep matrix med day ls g).1)
    ∧ ∀ (orders : List OrderRow) (lines : List LineRow) (matrix : List ChangeEntry)
        (pol : List PolicyStatusRow) (day : Int),
        List.Forall₂ (fun (l : LineRow) (st : LineState) =>
            st.remaining_cases ≤ init_remaining l ∧
            (st.remaining_cases : ℚ) ≤ max 0 (capacity_cases l) ∧
            (0 ≤ capacity_cases l → (st.remaining_cases : ℚ) ≤ capacity_cases l))
          lines
          ((runAlloc matrix (median_rate_cph lines) day (init_lines lines)
            (sku_need orders pol day)).1) := by
  refine ⟨allocStep_rem_decreasing, ?_⟩
  intro orders lines matrix pol day
  exact c5_combine lines _
    (runAlloc_rem_decreasing matrix (median_rate_cph lines) day (sku_need orders pol day)
      (init_lines lines))

/-- Witness for C5 amended at a concrete run: one 600-capacity line, one
700-case order. -/
theorem c5_witness :
    List.Forall₂ (fun (l : LineRow) (st : LineState) =>
        st.remaining_cases ≤ init_remaining l ∧
        (st.remaining_cases : ℚ) ≤ max 0 (capacity_cases l) ∧
        (0 ≤ capacity_cases l → (st.remaining_cases : ℚ) ≤ capacity_cases l))
      [⟨"L1", 600, 1, 0, ["A"]⟩]
      ((runAlloc [] (median_rate_cph [⟨"L1", 600, 1, 0, ["A"]⟩]) 0
        (init_lines [⟨"L1", 600, 1, 0, ["A"]⟩])
        (sku_need [⟨"Z", "A", 700, 10, "LOW"⟩] [] 0)).1) :=
  c5_remaining_capacity_invariants.2 [⟨"Z", "A", 700, 10, "LOW"⟩] [⟨"L1", 600, 1, 0, ["A"]⟩]
    [] [] 0

/-! ### C7: replenishment plan generation -/

/-- C7 counterexample: with target_dos = 1, a two-day forecast of 10 and 11
cases (window average 10.5) and 10 cases on hand, the spec's gap formula
`max(0, target_dos × average − on-hand)` gives 1/2 > 0 — which, raised to the
MOQ of 200 and rounded to 240, would emit plan rows — but the source rounds
the target to the nearest integer first (`round(10.5) = 10` half-to-even), so
its gap is 0 and it emits no plan rows. -/
theorem c7_counterexample :
    build_plan [⟨"S", 10⟩] [⟨"S", 0, 10⟩, ⟨"S", 1, 11⟩] [⟨"S", 0, 1, 100, 200, 60⟩] 0 = []
    ∧ spec_gap ⟨"S", 0, 1, 100, 200, 60⟩
        (avg_daily_fcst_7d [⟨"S", 0, 10⟩, ⟨"S", 1, 11⟩] 0 "S") 10 = 1/2
    ∧ 0 < spec_gap ⟨"S", 0, 1, 100, 200, 60⟩
        (avg_daily_fcst_7d [⟨"S", 0, 10⟩, ⟨"S", 1, 11⟩] 0 "S") 10 := by
  refine ⟨by decide, by decide, by decide⟩

lemma le_ceil_mul (g rnd : Nat) (h : 0 < rnd) : g ≤ ((g + rnd - 1) / rnd) * rnd := by
  have h1 : g + rnd - 1 < (g + rnd - 1) / rnd * rnd + rnd := Nat.lt_div_mul_add h
  generalize (g + rnd - 1) / rnd * rnd = x at h1 ⊢
  omega

lemma ceil_mul_lt (g rnd : Nat) (h : 0 < rnd) : ((g + rnd - 1) / rnd) * rnd < g + rnd := by
  have h1 : (g + rnd - 1) / rnd * rnd ≤ g + rnd - 1 := Nat.div_mul_le_self _ _
  generalize (g + rnd - 1) / rnd * rnd = x at h1 ⊢
  omega

/-- C7 amended: the gap is computed from the half-to-even-rounded target
quantity, `gap = max(0, round(target_dos × average) − on-hand)` (on integers,
so gap = 0 exactly when the rounded target does not exceed on-hand); a zero
gap yields no plan rows; a positive gap is raised to at least the MOQ and
rounded up to the next multiple of `max(1, pack_rounding)` — in particular
120 with MOQ 200 and pack rounding 60 becomes 240 — and is split over the
three days starting today with fractions 0.45/0.35/0.20 and half-to-even
rounding, omitting zero-quantity days: 240 splits as 108/84/48. -/
theorem c7_replenishment_amended :
    (∀ (p : PolicyRow) (avg : ℚ) (on_hand : Nat),
      gap_cases p avg on_hand = 0 ↔ target_qty p avg ≤ on_hand)
    ∧ (∀ gap moq rnd, max gap moq ≤ gap_rounded gap moq rnd
        ∧ (max 1 rnd) ∣ gap_rounded gap moq rnd
        ∧ gap_rounded gap moq rnd < max gap moq + max 1 rnd)
    ∧ (∀ (fg : FgInvRow) (forecast : List ForecastRow) (policy : List PolicyRow)
        (today : Int) (p : PolicyRow),
        policy.find? (fun q => q.sku == fg.sku) = some p →
        gap_cases p (avg_daily_fcst_7d forecast today fg.sku) fg.on_hand_cases = 0 →
        build_plan [fg] forecast policy today = [])
    ∧ (∀ (fg : FgInvRow) (forecast : List ForecastRow) (policy : List PolicyRow)
        (today : Int) (p : PolicyRow),
        policy.find? (fun q => q.sku == fg.sku) = some p →
        gap_cases p (avg_daily_fcst_7d forecast today fg.sku) fg.on_hand_cases ≠ 0 →
        build_plan [fg] forecast policy today
          = plan_rows_for today fg.sku
              (gap_rounded
                (gap_cases p (avg_daily_fcst_7d forecast today fg.sku) fg.on_hand_cases)
                p.moq_cases p.pack_rounding))
    ∧ gap_rounded 120 200 60 = 240
    ∧ plan_rows_for 0 "S" 240 = [⟨0, "S", 108⟩, ⟨1, "S", 84⟩, ⟨2, "S", 48⟩] := by
  refine ⟨?_, ?_, ?_, ?_, by decide, by decide⟩
  · intro p avg on_hand
    exact Nat.sub_eq_zero_iff_le
  · intro gap moq rnd
    have hrnd : 0 < max 1 rnd := lt_of_lt_of_le Nat.one_pos (Nat.le_max_left 1 rnd)
    exact ⟨le_ceil_mul _ _ hrnd, Dvd.dvd.mul_left (dvd_refl _) _,
      ceil_mul_lt _ _ hrnd⟩
  · intro fg forecast policy today p hfind hgap
    simp [build_plan, hfind, hgap]
  · intro fg forecast policy today p hfind hgap
    simp [build_plan, hfind, hgap, gap_rounded]

/-- Witness for C7 amended: the zero-gap branch of the counterexample run
emits no rows. -/
theorem c7_witness :
    build_plan [⟨"S", 10⟩] [⟨"S", 0, 10⟩, ⟨"S", 1, 11⟩] [⟨"S", 0, 1, 100, 200, 60⟩] 0 = [] :=
  (c7_replenishment_amended.2.2.1 ⟨"S", 10⟩ [⟨"S", 0, 10⟩, ⟨"S", 1, 11⟩]
    [⟨"S", 0, 1, 100, 200, 60⟩] 0 ⟨"S", 0, 1, 100, 200, 60⟩ (by decide) (by decide))

/-! ### C8: shortage detection -/

lemma mem_build_mrp_exception {req : List ReqRow} {inv : List MatInvRow} {e : ExcRow} :
    e ∈ build_mrp_exception req inv ↔
      ∃ rq ∈ req, e ∈ ((if (inv.filter (fun m => m.material == rq.material)) = []
          then [exc_row rq none]
          else (inv.filter (fun m => m.material == rq.material)).map
            (fun m => exc_row rq (some m))).filter
          (fun x => decide (0 < x.short_qty))) := by
  unfold build_mrp_exception
  rw [List.mem_flatten]
  constructor
  · rintro ⟨block, hblock, he⟩
    obtain ⟨d, _, rfl⟩ := List.mem_map.mp hblock
    rw [List.mem_flatten] at he
    obtain ⟨rows, hrows, he2⟩ := he
    obtain ⟨rq, hrq, rfl⟩ := List.mem_map.mp hrows
    exact ⟨rq, (List.mem_filter.mp hrq).1, he2⟩
  · rintro ⟨rq, hrq, he⟩
    have hdate : rq.date ∈ List.insertionSort strLeP (uniqueFirst (req.map (fun r => r.date))) :=
      (List.mem_insertionSort _).mpr (mem_uniqueFirst.mpr (List.mem_map_of_mem _ hrq))
    refine ⟨_, List.mem_map_of_mem _ hdate, ?_⟩
    rw [List.mem_flatten]
    refine ⟨_, List.mem_map_of_mem _ (List.mem_filter.mpr ⟨hrq, by simp⟩), he⟩

/-- C8: every emitted exception row has a strictly positive short quantity
computed as `max 0 (requirement − available)`, where the availability for its
(date, material) bucket is on-hand plus on-order exactly when an arrival date
is present and (as strings) ≤ the bucket date, and 0 for a material absent
from the inventory; every requirement row whose short quantity against a
matching inventory row is positive yields such an exception row; and the
spec's concrete instance — requirement 1000 on 2026-02-09 and 2026-02-10,
on-hand 800, on-order 300 arriving 2026-02-10 — yields exactly the single row
short 200 on 2026-02-09. -/
theorem c8_shortage_detection :
    (∀ (req : List ReqRow) (inv : List MatInvRow) (e : ExcRow),
      e ∈ build_mrp_exception req inv →
        0 < e.short_qty ∧
        e.short_qty = max 0 (e.req_qty - e.available_qty) ∧
        ∃ rq ∈ req, e.date = rq.date ∧ e.material = rq.material ∧ e.req_qty = rq.req_qty ∧
          ((∃ m ∈ inv, m.material = rq.material ∧ e.available_qty = available_qty m rq.date) ∨
            ((∀ m ∈ inv, m.material ≠ rq.material) ∧ e.available_qty = 0)))
    ∧ (∀ (req : List ReqRow) (inv : List MatInvRow) (rq : ReqRow) (m : MatInvRow),
        rq ∈ req → m ∈ inv → m.material = rq.material →
        0 < max 0 (rq.req_qty - available_qty m rq.date) →
        ∃ e ∈ build_mrp_exception req inv, e.date = rq.date ∧ e.material = rq.material ∧
          e.req_qty = rq.req_qty ∧ e.available_qty = available_qty m rq.date ∧
          e.short_qty = max 0 (rq.req_qty - available_qty m rq.date))
    ∧ build_mrp_exception
        [⟨"2026-02-09", "RESIN", 1000⟩, ⟨"2026-02-10", "RESIN", 1000⟩]
        [⟨"RESIN", 800, 300, "2026-02-10"⟩]
      = [⟨"2026-02-09", "RESIN", 1000, 800, 200, "2026-02-10",
          "Expedite / Re-sequence / Substitute"⟩] := by
  refine ⟨?_, ?_, by decide⟩
  · intro req inv e he
    obtain ⟨rq, hrq, hin⟩ := mem_build_mrp_exception.mp he
    obtain ⟨hbase, hdec⟩ := List.mem_filter.mp hin
    have hpos : 0 < e.short_qty := of_decide_eq_true hdec
    by_cases hms : inv.filter (fun m => m.material == rq.material) = []
    · rw [if_pos hms] at hbase
      rw [List.mem_singleton] at hbase
      subst hbase
      refine ⟨hpos, rfl, rq, hrq, rfl, rfl, rfl, Or.inr ⟨?_, rfl⟩⟩
      intro m hm
      have hnil := List.filter_eq_nil_iff.mp hms m hm
      simpa using hnil
    · rw [if_neg hms] at hbase
      obtain ⟨m, hm, rfl⟩ := List.mem_map.mp hbase
      have hmem := List.mem_filter.mp hm
      refine ⟨hpos, rfl, rq, hrq, rfl, rfl, rfl,
        Or.inl ⟨m, hmem.1, by simpa using hmem.2, rfl⟩⟩
  · intro req inv rq m hrq hm hmat hpos
    have hms : m ∈ inv.filter (fun x => x.material == rq.material) :=
      List.mem_filter.mpr ⟨hm, by simp [hmat]⟩
    have hne : inv.filter (fun x => x.material == rq.material) ≠ [] :=
      List.ne_nil_of_mem hms
    refine ⟨exc_row rq (some m), mem_build_mrp_exception.mpr ⟨rq, hrq, ?_⟩,
      rfl, rfl, rfl, rfl, rfl⟩
    rw [List.mem_filter, if_neg hne]
    exact ⟨List.mem_map_of_mem _ hms, decide_eq_true hpos⟩

/-- Witness for C8 at the spec's concrete instance: the 2026-02-09 bucket has
a positive short quantity and therefore appears in the report. -/
theorem c8_witness :
    ∃ e ∈ build_mrp_exception
        [⟨"2026-02-09", "RESIN", 1000⟩, ⟨"2026-02-10", "RESIN", 1000⟩]
        [⟨"RESIN", 800, 300, "2026-02-10"⟩],
      e.date = "2026-02-09" ∧ e.material = "RESIN" ∧ e.req_qty = 1000 ∧
        e.available_qty =
          available_qty ⟨"RESIN", 800, 300, "2026-02-10"⟩ "2026-02-09" ∧
        e.short_qty = max 0 (1000 - available_qty ⟨"RESIN", 800, 300, "2026-02-10"⟩
          "2026-02-09") :=
  c8_shortage_detection.2.1
    [⟨"2026-02-09", "RESIN", 1000⟩, ⟨"2026-02-10", "RESIN", 1000⟩]
    [⟨"RESIN", 800, 300, "2026-02-10"⟩]
    ⟨"2026-02-09", "RESIN", 1000⟩ ⟨"RESIN", 800, 300, "2026-02-10"⟩
    (by decide) (by decide) rfl (by decide)

/-! ### C3: eligible-line scoring and selection -/

lemma pickBest_eq_none : ∀ {l : List (ℚ × String × Nat)}, pickBest l = none ↔ l = []
  | [] => by simp [pickBest]
  | y :: ys => by
    constructor
    · intro h
      rw [pickBest] at h
      cases hys : pickBest ys <;> rw [hys] at h <;> cases h
    · intro h
      cases h

lemma pickBest_mem : ∀ {l : List (ℚ × String × Nat)} {x : ℚ × String × Nat},
    pickBest l = some x → x ∈ l := by
  intro l
  induction l with
  | nil => intro x h; cases h
  | cons y ys ih =>
    intro x h
    rw [pickBest] at h
    cases hys : pickBest ys with
    | none =>
      rw [hys] at h
      cases h
      exact List.mem_cons_self y ys
    | some b =>
      rw [hys] at h
      simp only [Option.some.injEq] at h
      by_cases hlt : y.1 < b.1
      · rw [if_pos hlt] at h
        exact List.mem_cons_of_mem y (h ▸ ih hys)
      · rw [if_neg hlt] at h
        exact h ▸ List.mem_cons_self y ys

lemma pickBest_max : ∀ {l : List (ℚ × String × Nat)} {x : ℚ × String × Nat},
    pickBest l = some x → ∀ y ∈ l, y.1 ≤ x.1 := by
  intro l
  induction l with
  | nil => intro x h; cases h
  | cons y ys ih =>
    intro x h z hz
    rw [pickBest] at h
    cases hys : pickBest ys with
    | none =>
      rw [hys] at h
      cases h
      rcases List.mem_cons.mp hz with rfl | hzys
      · exact le_refl _
      · exact absurd (pickBest_eq_none.mp hys ▸ hzys) (List.not_mem_nil z)
    | some b =>
      rw [hys] at h
      simp only [Option.some.injEq] at h
      rcases List.mem_cons.mp hz with rfl | hzys
      · by_cases hlt : z.1 < b.1
        · rw [if_pos hlt] at h
          exact h ▸ le_of_lt hlt
        · rw [if_neg hlt] at h
          exact h ▸ le_refl _
      · have hzb := ih hys z hzys
        by_cases hlt : y.1 < b.1
        · rw [if_pos hlt] at h
          exact h ▸ hzb
        · rw [if_neg hlt] at h
          exact h ▸ le_trans hzb (le_of_not_lt hlt)

lemma pickBest_first : ∀ {l : List (ℚ × String × Nat)} {x : ℚ × String × Nat},
    pickBest l = some x →
      ∃ l₁ l₂, l = l₁ ++ x :: l₂ ∧ ∀ y ∈ l₁, y.1 < x.1 := by
  intro l
  induction l with
  | nil => intro x h; cases h
  | cons y ys ih =>
    intro x h
    rw [pickBest] at h
    cases hys : pickBest ys with
    | none =>
      rw [hys] at h
      cases h
      exact ⟨[], ys, rfl, by simp⟩
    | some b =>
      rw [hys] at h
      simp only [Option.some.injEq] at h
      by_cases hlt : y.1 < b.1
      · rw [if_pos hlt] at h
        obtain ⟨l₁, l₂, hsplit, hl₁⟩ := ih hys
        subst h
        refine ⟨y :: l₁, l₂, by rw [hsplit]; rfl, ?_⟩
        intro z hz
        rcases List.mem_cons.mp hz with rfl | hzl₁
        · exact hlt
        · exact hl₁ z hzl₁
      · rw [if_neg hlt] at h
        subst h
        exact ⟨[], ys, rfl, by simp⟩

/-- C3: for a SKU-demand group, the candidate list contains exactly the lines
whose eligible set contains the SKU and whose remaining capacity is positive,
in line enumeration order, each scored
`remaining − changeover × median rate / 60 − changeover × 10` with the
changeover 0 for a line with no prior SKU and otherwise the matrix value with
a 60-minute default; when the list is non-empty the scheduler assigns the
group to the first candidate attaining the maximal score (every earlier
candidate scores strictly less, every candidate scores at most it — ties go
to the earlier enumerated line) and charges that candidate's changeover. -/
theorem c3_line_selection (lines : List LineRow) (matrix : List ChangeEntry) (day : Int)
    (ls : List LineState) (g : SkuGroup) :
    (∀ x, x ∈ elig_lines matrix (median_rate_cph lines) ls g.sku ↔
      ∃ st ∈ ls, g.sku ∈ st.eligible_skus ∧ 0 < st.remaining_cases ∧
        x = ((st.remaining_cases : ℚ)
              - ((chg matrix st.last_sku g.sku : ℚ) * median_rate_cph lines / 60)
              - ((chg matrix st.last_sku g.sku : ℚ) * 10),
             st.line_id, chg matrix st.last_sku g.sku))
    ∧ (∀ b, chg matrix "" b = 0)
    ∧ (∀ a b, a ≠ "" → matrix.find? (fun e => e.from_sku == a && e.to_sku == b) = none →
        chg matrix a b = 60)
    ∧ (elig_lines matrix (median_rate_cph lines) ls g.sku ≠ [] →
        ∃ best l₁ l₂,
          elig_lines matrix (median_rate_cph lines) ls g.sku = l₁ ++ best :: l₂ ∧
          (∀ y ∈ l₁, y.1 < best.1) ∧
          (∀ y ∈ elig_lines matrix (median_rate_cph lines) ls g.sku, y.1 ≤ best.1) ∧
          (allocStep matrix (median_rate_cph lines) day ls g).2.line_id = best.2.1 ∧
          (allocStep matrix (median_rate_cph lines) day ls g).2.changeover_min = best.2.2) := by
  refine ⟨?_, fun b => by simp [chg], fun a b ha hfind => by simp [chg, ha, hfind], ?_⟩
  · intro x
    unfold elig_lines
    rw [List.mem_filterMap]
    constructor
    · rintro ⟨st, hst, hf⟩
      by_cases hc : g.sku ∈ st.eligible_skus ∧ 0 < st.remaining_cases
      · rw [if_pos hc] at hf
        exact ⟨st, hst, hc.1, hc.2, (Option.some.inj hf).symm⟩
      · rw [if_neg hc] at hf
        cases hf
    · rintro ⟨st, hst, h1, h2, rfl⟩
      exact ⟨st, hst, by rw [if_pos ⟨h1, h2⟩]⟩
  · intro hne
    cases hp : pickBest (elig_lines matrix (median_rate_cph lines) ls g.sku) with
    | none => exact absurd (pickBest_eq_none.mp hp) hne
    | some x =>
      obtain ⟨l₁, l₂, hsplit, hl₁⟩ := pickBest_first hp
      refine ⟨x, l₁, l₂, hsplit, hl₁, pickBest_max hp, ?_, ?_⟩
      · unfold allocStep
        rw [hp]
        cases hf : ls.find? (fun st => st.line_id == x.2.1) <;> simp [hf]
      · unfold allocStep
        rw [hp]
        cases hf : ls.find? (fun st => st.line_id == x.2.1) <;> simp [hf]

/-- Witness for C3 at a concrete state: one eligible 600-capacity line, SKU
"A"; the candidate list is non-empty and the group goes to line "L1". -/
theorem c3_witness :
    ∃ best l₁ l₂,
      elig_lines [] (median_rate_cph [⟨"L1", 600, 1, 0, ["A"]⟩])
          (init_lines [⟨"L1", 600, 1, 0, ["A"]⟩]) (⟨"A", 700, 0⟩ : SkuGroup).sku
        = l₁ ++ best :: l₂ ∧
      (∀ y ∈ l₁, y.1 < best.1) ∧
      (∀ y ∈ elig_lines [] (median_rate_cph [⟨"L1", 600, 1, 0, ["A"]⟩])
          (init_lines [⟨"L1", 600, 1, 0, ["A"]⟩]) (⟨"A", 700, 0⟩ : SkuGroup).sku,
        y.1 ≤ best.1) ∧
      (allocStep [] (median_rate_cph [⟨"L1", 600, 1, 0, ["A"]⟩]) 0
        (init_lines [⟨"L1", 600, 1, 0, ["A"]⟩]) ⟨"A", 700, 0⟩).2.line_id = best.2.1 ∧
      (allocStep [] (median_rate_cph [⟨"L1", 600, 1, 0, ["A"]⟩]) 0
        (init_lines [⟨"L1", 600, 1, 0, ["A"]⟩]) ⟨"A", 700, 0⟩).2.changeover_min = best.2.2 :=
  (c3_line_selection [⟨"L1", 600, 1, 0, ["A"]⟩] [] 0 (init_lines [⟨"L1", 600, 1, 0, ["A"]⟩])
    ⟨"A", 700, 0⟩).2.2.2 (by decide)

/-! ### C2: the ordering of the SKU-demand groups -/

/-- C2 counterexample: two fully tied orders (same priority, same quantity)
for SKUs "B" then "A", in that first-seen order.  The source's
`groupby(["sku"])` pre-sorts the groups alphabetically, so the run processes
"A" before "B", while the spec's claimed first-seen tie-break would process
"B" before "A". -/
theorem c2_counterexample :
    (sku_need [⟨"Z", "B", 10, 10, "LOW"⟩, ⟨"Z", "A", 10, 10, "LOW"⟩] [] 0).map
        (fun g => g.sku) = ["A", "B"]
    ∧ (spec_sku_need [⟨"Z", "B", 10, 10, "LOW"⟩, ⟨"Z", "A", 10, 10, "LOW"⟩] [] 0).map
        (fun g => g.sku) = ["B", "A"] := by
  refine ⟨by decide, by decide⟩

/-- The total ordering the scheduler actually processes groups in: priority
key descending, then total quantity descending, then SKU ascending. -/
def groupOrder (a b : SkuGroup) : Prop :=
  b.max_priority < a.max_priority ∨
    (a.max_priority = b.max_priority ∧
      (b.total_qty_cases < a.total_qty_cases ∨
        (a.total_qty_cases = b.total_qty_cases ∧ strLe a.sku b.sku = true)))

lemma charListLt_asymm : ∀ x y : List Char,
    charListLt x y = true → charListLt y x = true → False
  | [], [], h1, _ => by simp [charListLt] at h1
  | [], _ :: _, _, h2 => by simp [charListLt] at h2
  | _ :: _, [], h1, _ => by simp [charListLt] at h1
  | a :: as, b :: bs, h1, h2 => by
    by_cases hab : a < b
    · have hba : ¬ b < a := asymm hab
      rw [charListLt, if_neg hba, if_pos hab] at h2
      cases h2
    · by_cases hba : b < a
      · rw [charListLt, if_neg hab, if_pos hba] at h1
        cases h1
      · rw [charListLt, if_neg hab, if_neg hba] at h1
        rw [charListLt, if_neg hba, if_neg hab] at h2
        exact charListLt_asymm as bs h1 h2

lemma charListLt_step : ∀ x y z : List Char, charListLt x z = true →
    charListLt x y = true ∨ charListLt y z = true
  | [], y, z, h => by
    cases z with
    | nil => simp [charListLt] at h
    | cons c cs =>
      cases y with
      | nil => exact Or.inr (by simp [charListLt])
      | cons b bs => exact Or.inl (by simp [charListLt])
  | a :: as, y, z, h => by
    cases z with
    | nil => simp [charListLt] at h
    | cons c cs =>
      cases y with
      | nil => exact Or.inr (by simp [charListLt])
      | cons b bs =>
        by_cases hac : a < c
        · by_cases hab : a < b
          · exact Or.inl (by simp [charListLt, hab])
          · have hbc : b < c := lt_of_le_of_lt (le_of_not_lt hab) hac
            exact Or.inr (by simp [charListLt, hbc])
        · by_cases hca : c < a
          · rw [charListLt, if_pos hca] at h
            rw [if_neg hac] at h
            cases h
          · have hrec : charListLt as cs = true := by
              rw [charListLt, if_neg hac, if_neg hca] at h
              exact h
            by_cases hab : a < b
            · exact Or.inl (by simp [charListLt, hab])
            · by_cases hba : b < a
              · have hae : a = c := le_antisymm (le_of_not_lt hca) (le_of_not_lt hac)
                have hbc : b < c := hae ▸ hba
                exact Or.inr (by simp [charListLt, hbc])
              · have hab2 : a = b := le_antisymm (le_of_not_lt hba) (le_of_not_lt hab)
                rcases charListLt_step as bs cs hrec with h1 | h1
                · exact Or.inl (by rw [charListLt, if_neg hab, if_neg hba]; exact h1)
                · have hbc : ¬ b < c := fun hc => hac (hab2 ▸ hc)
                  have hcb : ¬ c < b := fun hc => hca (hab2 ▸ hc : c < a)
                  exact Or.inr (by rw [charListLt, if_neg hbc, if_neg hcb]; exact h1)

lemma charListLt_eq : ∀ x y : List Char,
    charListLt x y = false → charListLt y x = false → x = y
  | [], [], _, _ => rfl
  | [], _ :: _, h1, _ => by simp [charListLt] at h1
  | _ :: _, [], _, h2 => by simp [charListLt] at h2
  | a :: as, b :: bs, h1, h2 => by
    by_cases hab : a < b
    · rw [charListLt, if_pos hab] at h1
      cases h1
    · by_cases hba : b < a
      · rw [charListLt, if_pos hba] at h2
        cases h2
      · have hae : a = b := le_antisymm (le_of_not_lt hba) (le_of_not_lt hab)
        rw [charListLt, if_neg hab, if_neg hba] at h1
        rw [charListLt, if_neg hba, if_neg hab] at h2
        rw [hae, charListLt_eq as bs h1 h2]

lemma strLe_of_strLt (a b : String) (h : strLt a b = true) : strLe a b = true := by
  have hba : strLt b a = false := by
    cases hx : strLt b a
    · rfl
    · exact (charListLt_asymm a.data b.data h hx).elim
  simp [strLe, hba]

lemma strLe_total (a b : String) : strLe a b = true ∨ strLe b a = true := by
  cases hab : strLt b a
  · exact Or.inl (by simp [strLe, hab])
  · have hx : strLt a b = false := by
      cases h2 : strLt a b
      · rfl
      · exact (charListLt_asymm a.data b.data h2 hab).elim
    exact Or.inr (by simp [strLe, hx])

lemma strLe_trans (a b c : String) (h1 : strLe a b = true) (h2 : strLe b c = true) :
    strLe a c = true := by
  simp only [strLe, Bool.not_eq_true'] at h1 h2 ⊢
  cases hca : strLt c a
  · rfl
  · rcases charListLt_step c.data b.data a.data hca with h | h
    · rw [show strLt c b = charListLt c.data b.data from rfl] at h2
      rw [h2] at h
      cases h
    · rw [show strLt b a = charListLt b.data a.data from rfl] at h1
      rw [h1] at h
      cases h

lemma strLt_or_eq_of_strLe (a b : String) (h : strLe a b = true) :
    strLt a b = true ∨ a = b := by
  cases hab : strLt a b
  · have hba : strLt b a = false := by
      simpa [strLe, Bool.not_eq_true'] using h
    have hdata := charListLt_eq a.data b.data hab hba
    right
    cases a
    cases b
    exact congrArg String.mk hdata
  · exact Or.inl rfl

instance : IsTotal String strLeP := ⟨fun a b => strLe_total a b⟩

instance : IsTrans String strLeP := ⟨fun a b c h1 h2 => strLe_trans a b c h1 h2⟩

lemma groupOrder_of_groupLE_of_lt (x y : SkuGroup) (h : groupLE x y)
    (hs : strLt x.sku y.sku = true) : groupOrder x y := by
  rcases h with h | ⟨hp, hq⟩
  · exact Or.inl h
  · rcases Nat.lt_or_ge y.total_qty_cases x.total_qty_cases with h1 | h1
    · exact Or.inr ⟨hp, Or.inl h1⟩
    · exact Or.inr ⟨hp, Or.inr ⟨le_antisymm h1 hq, strLe_of_strLt _ _ hs⟩⟩

lemma groupOrder_trans_key (x y z : SkuGroup) (hxy : groupLE x y) (hyz : groupOrder y z)
    (hs : strLt x.sku z.sku = true) : groupOrder x z := by
  rcases hxy with h | ⟨hp, hq⟩ <;> rcases hyz with h' | ⟨hp', hq'⟩
  · exact Or.inl (lt_trans h' h)
  · exact Or.inl (by rw [← hp']; exact h)
  · exact Or.inl (by rw [hp]; exact h')
  · have hpz : x.max_priority = z.max_priority := hp.trans hp'
    rcases hq' with h2 | ⟨h2, _⟩
    · exact Or.inr ⟨hpz, Or.inl (lt_of_lt_of_le h2 hq)⟩
    · rcases Nat.lt_or_ge z.total_qty_cases x.total_qty_cases with h3 | h3
      · exact Or.inr ⟨hpz, Or.inl h3⟩
      · have hzx : z.total_qty_cases ≤ x.total_qty_cases := h2 ▸ hq
        exact Or.inr ⟨hpz, Or.inr ⟨le_antisymm h3 hzx, strLe_of_strLt _ _ hs⟩⟩

lemma groupOrder_of_not_groupLE (x y : SkuGroup) (h : ¬ groupLE x y) : groupOrder y x := by
  unfold groupLE at h
  push_neg at h
  obtain ⟨h1, h2⟩ := h
  rcases lt_or_eq_of_le h1 with hlt | heq
  · exact Or.inl hlt
  · exact Or.inr ⟨heq.symm, Or.inl (h2 heq)⟩

lemma pairwise_orderedInsert_groupLE (x : SkuGroup) :
    ∀ l : List SkuGroup, l.Pairwise groupOrder →
      (∀ y ∈ l, strLt x.sku y.sku = true) →
      (List.orderedInsert groupLE x l).Pairwise groupOrder
  | [], _, _ => List.pairwise_singleton _ _
  | y :: ys, hpw, hsku => by
    rw [List.orderedInsert]
    have hpw' := List.pairwise_cons.mp hpw
    by_cases hle : groupLE x y
    · rw [if_pos hle]
      refine List.Pairwise.cons ?_ hpw
      intro z hz
      rcases List.mem_cons.mp hz with rfl | hzys
      · exact groupOrder_of_groupLE_of_lt x z hle (hsku z (List.mem_cons_self _ _))
      · exact groupOrder_trans_key x y z hle (hpw'.1 z hzys)
          (hsku z (List.mem_cons_of_mem _ hzys))
    · rw [if_neg hle]
      refine List.Pairwise.cons ?_
        (pairwise_orderedInsert_groupLE x ys hpw'.2
          (fun z hz => hsku z (List.mem_cons_of_mem _ hz)))
      intro z hz
      rw [List.mem_orderedInsert] at hz
      rcases hz with rfl | hzys
      · exact groupOrder_of_not_groupLE z y hle
      · exact hpw'.1 z hzys

lemma pairwise_insertionSort_groupLE :
    ∀ l : List SkuGroup, l.Pairwise (fun a b => strLt a.sku b.sku = true) →
      (List.insertionSort groupLE l).Pairwise groupOrder
  | [], _ => List.Pairwise.nil
  | x :: xs, h => by
    rw [List.insertionSort]
    have h' := List.pairwise_cons.mp h
    refine pairwise_orderedInsert_groupLE x _ (pairwise_insertionSort_groupLE xs h'.2) ?_
    intro y hy
    exact h'.1 y ((List.mem_insertionSort _).mp hy)

lemma keys_pairwise_strict (l : List String) :
    (List.insertionSort strLeP (uniqueFirst l)).Pairwise (fun a b => strLt a b = true) := by
  have hs : (List.insertionSort strLeP (uniqueFirst l)).Pairwise strLeP :=
    List.sorted_insertionSort strLeP (uniqueFirst l)
  have hn : (List.insertionSort strLeP (uniqueFirst l)).Nodup :=
    ((List.perm_insertionSort strLeP (uniqueFirst l)).nodup_iff).mpr (nodup_uniqueFirst l)
  exact (hs.and hn).imp (fun h => (strLt_or_eq_of_strLe _ _ h.1).resolve_right h.2)

lemma groups_pairwise (orders : List OrderRow) (pol : List PolicyStatusRow) (day : Int) :
    ((List.insertionSort strLeP (uniqueFirst (orders.map (fun o => o.sku)))).map
      (sku_group orders pol day)).Pairwise (fun a b => strLt a.sku b.sku = true) := by
  rw [List.pairwise_map]
  exact keys_pairwise_strict _

/-- C2 amended: the run processes the SKU-demand groups sorted by maximum
priority score descending, ties by total demand quantity descending, and
remaining ties by SKU identifier ascending (the alphabetical order the
group-by imposes) — not by the SKUs' first-seen order among the orders; the
groups themselves are exactly one per distinct order SKU. -/
theorem c2_group_ordering_amended (orders : List OrderRow) (pol : List PolicyStatusRow)
    (day : Int) :
    List.Sorted groupOrder (sku_need orders pol day)
    ∧ (sku_need orders pol day).Perm
        ((List.insertionSort strLeP (uniqueFirst (orders.map (fun o => o.sku)))).map
          (sku_group orders pol day))
    ∧ ∀ s, (∃ g ∈ sku_need orders pol day, g.sku = s) ↔ s ∈ orders.map (fun o => o.sku) := by
  refine ⟨?_, List.perm_insertionSort _ _, ?_⟩
  · exact pairwise_insertionSort_groupLE _ (groups_pairwise orders pol day)
  · intro s
    constructor
    · rintro ⟨g, hg, rfl⟩
      obtain ⟨s', hs', rfl⟩ := mem_sku_need.mp hg
      exact hs'
    · intro hs
      exact ⟨sku_group orders pol day s, mem_sku_need.mpr ⟨s, hs, rfl⟩, rfl⟩

/-- Witness for C2 amended at the counterexample orders: the processed group
list is sorted by the implemented order. -/
theorem c2_witness :
    List.Sorted groupOrder
      (sku_need [⟨"Z", "B", 10, 10, "LOW"⟩, ⟨"Z", "A", 10, 10, "LOW"⟩] [] 0) :=
  (c2_group_ordering_amended [⟨"Z", "B", 10, 10, "LOW"⟩, ⟨"Z", "A", 10, 10, "LOW"⟩] [] 0).1

/-- Witness for C4 at a concrete run: a one-order, one-line schedule has
duplicate-free SKUs. -/
theorem c4_witness :
    ((schedule_day [⟨"Z", "A", 700, 10, "LOW"⟩] [⟨"L1", 600, 1, 0, ["A"]⟩] [] [] 0).map
      (fun r => r.sku)).Nodup :=
  (c4_one_row_per_sku [⟨"Z", "A", 700, 10, "LOW"⟩] [⟨"L1", 600, 1, 0, ["A"]⟩] [] [] 0).1
